import Mathlib

/-!
Verification of the collaborative-filtering core of the yelp-clone repository.

The Python sources embedded here are `logs/find_ideal_user.py` (the pure
`calculate_pearson` and the candidate ranker `find_ideal_cf_users`) and
`logs/analyze_cf.py` (`calculate_pearson_correlation`, `find_similar_users`,
`find_similar_items`).  Python floats are modelled as real numbers, rating
rows as a list of `Rating` records, and the `defaultdict` indices as total
lookup functions whose value at a key is the last write performed by the
construction loop (Python dict writes are last-wins).
-/

namespace YelpCF

/-- Sample mean `sum(vec) / len(vec)` of a list of reals, as computed for
`meanA` and `meanB` in `calculate_pearson` (`find_ideal_user.py` lines 94-95). -/
noncomputable def listMean (v : List ℝ) : ℝ := v.sum / v.length

/-- Sum of squared deviations from the mean: the `denominatorA` /
`denominatorB` quantity of `calculate_pearson` (`find_ideal_user.py`
lines 98-99). -/
noncomputable def devSqSum (v : List ℝ) : ℝ :=
  (v.map (fun a => (a - listMean v) ^ 2)).sum

/-- The `numerator` of `calculate_pearson` (`find_ideal_user.py` line 97):
`sum((a - meanA) * (b - meanB) for a, b in zip(vecA, vecB))`. -/
noncomputable def crossSum (vecA vecB : List ℝ) : ℝ :=
  ((vecA.zip vecB).map (fun p => (p.1 - listMean vecA) * (p.2 - listMean vecB))).sum

/-- `calculate_pearson` from `logs/find_ideal_user.py` lines 89-105: return 0
when `len(vecA) < 2`, compute means, numerator and the two squared-deviation
sums, return 0 when either squared-deviation sum is 0, otherwise divide the
numerator by the product of their square roots. -/
noncomputable def calculate_pearson (vecA vecB : List ℝ) : ℝ :=
  if vecA.length < 2 then 0
  else if devSqSum vecA = 0 ∨ devSqSum vecB = 0 then 0
  else crossSum vecA vecB / (Real.sqrt (devSqSum vecA) * Real.sqrt (devSqSum vecB))

/-- `np.std` with its default `ddof = 0`, as called on line 15 of
`analyze_cf.py`: the square root of the mean squared deviation. -/
noncomputable def npStd (v : List ℝ) : ℝ := Real.sqrt (devSqSum v / v.length)

/-- Value of `scipy.stats.pearsonr` on two equal-length vectors with nonzero
variance (the only situation in which `calculate_pearson_correlation` reaches
the call): the standard mean-centered, variance-normalized coefficient.  The
library is external to the repository and is modelled by its mathematical
definition. -/
noncomputable def pearsonrVal (v1 v2 : List ℝ) : ℝ :=
  crossSum v1 v2 / (Real.sqrt (devSqSum v1) * Real.sqrt (devSqSum v2))

/-- `calculate_pearson_correlation` from `logs/analyze_cf.py` lines 8-21:
return 0 when `len(vec1) < 2`; return 0 when either `np.std` is 0; otherwise
call `pearsonr`.  A length mismatch makes `pearsonr` raise, which the bare
`except` converts to 0 (the final branch).  The `np.isnan` sanitize on
line 19 is unreachable over ℝ once the zero-variance guard has passed, so it
is the identity here. -/
noncomputable def calculate_pearson_correlation (vec1 vec2 : List ℝ) : ℝ :=
  if vec1.length < 2 then 0
  else if npStd vec1 = 0 ∨ npStd vec2 = 0 then 0
  else if vec1.length = vec2.length then pearsonrVal vec1 vec2
  else 0

theorem map_sum_range {α : Type} (l : List α) (d : α) (F : α → ℝ) :
    (l.map F).sum = ∑ i in Finset.range l.length, F (l.getD i d) := by
  induction l with
  | nil => simp
  | cons a t ih =>
      rw [List.map_cons, List.sum_cons, List.length_cons, Finset.sum_range_succ']
      simp only [List.getD_cons_succ, List.getD_cons_zero]
      rw [← ih, add_comm]

theorem zip_getD (va vb : List ℝ) (i : ℕ) (h : i < (va.zip vb).length) :
    (va.zip vb).getD i (0, 0) = (va.getD i 0, vb.getD i 0) := by
  rw [List.length_zip, lt_min_iff] at h
  obtain ⟨h1, h2⟩ := h
  have hz : i < (va.zip vb).length := by rw [List.length_zip, lt_min_iff]; exact ⟨h1, h2⟩
  rw [List.getD_eq_getElem _ _ hz, List.getD_eq_getElem _ _ h1,
    List.getD_eq_getElem _ _ h2, List.getElem_zip]

theorem crossSum_eq_range (va vb : List ℝ) (h : vb.length = va.length) :
    crossSum va vb =
      ∑ i in Finset.range va.length,
        (va.getD i 0 - listMean va) * (vb.getD i 0 - listMean vb) := by
  unfold crossSum
  rw [map_sum_range _ ((0 : ℝ), (0 : ℝ))]
  have hz : (va.zip vb).length = va.length := by rw [List.length_zip, h, min_self]
  rw [hz]
  refine Finset.sum_congr rfl ?_
  intro i hi
  have hi' : i < (va.zip vb).length := by rw [hz]; exact Finset.mem_range.mp hi
  rw [zip_getD va vb i hi']

theorem devSqSum_eq_range (v : List ℝ) :
    devSqSum v = ∑ i in Finset.range v.length, (v.getD i 0 - listMean v) ^ 2 := by
  unfold devSqSum
  rw [map_sum_range v (0 : ℝ)]

theorem devSqSum_nonneg (v : List ℝ) : 0 ≤ devSqSum v := by
  rw [devSqSum_eq_range]
  exact Finset.sum_nonneg fun i _ => sq_nonneg _

theorem listMean_of_all_eq {v : List ℝ} {c : ℝ} (hne : v ≠ [])
    (h : ∀ x ∈ v, x = c) : listMean v = c := by
  unfold listMean
  rw [List.sum_eq_card_nsmul v c h, nsmul_eq_mul]
  have hl : (v.length : ℝ) ≠ 0 := by
    exact_mod_cast Nat.pos_of_ne_zero (fun h0 => hne (List.length_eq_zero.mp h0)) |>.ne'
  field_simp

theorem devSqSum_of_all_eq {v : List ℝ} {c : ℝ} (hne : v ≠ [])
    (h : ∀ x ∈ v, x = c) : devSqSum v = 0 := by
  unfold devSqSum
  apply List.sum_eq_zero
  intro y hy
  rcases List.mem_map.mp hy with ⟨x, hx, rfl⟩
  rw [h x hx, listMean_of_all_eq hne h]
  ring

theorem all_eq_mean_of_devSqSum_eq_zero {v : List ℝ} (h : devSqSum v = 0) :
    ∀ x ∈ v, x = listMean v := by
  intro x hx
  rw [devSqSum_eq_range] at h
  have h0 := (Finset.sum_eq_zero_iff_of_nonneg (fun i _ => sq_nonneg _)).mp h
  rcases List.mem_iff_getElem.mp hx with ⟨i, hi, rfl⟩
  have hterm := h0 i (Finset.mem_range.mpr hi)
  rw [List.getD_eq_getElem _ _ hi] at hterm
  have := sq_eq_zero_iff.mp hterm
  linarith

theorem devSqSum_ne_zero_of_two_ne {v : List ℝ} {a b : ℝ} (ha : a ∈ v)
    (hb : b ∈ v) (hab : a ≠ b) : devSqSum v ≠ 0 := by
  intro h
  have h1 := all_eq_mean_of_devSqSum_eq_zero h a ha
  have h2 := all_eq_mean_of_devSqSum_eq_zero h b hb
  exact hab (h1.trans h2.symm)

theorem crossSum_sq_le (va vb : List ℝ) (h : vb.length = va.length) :
    crossSum va vb ^ 2 ≤ devSqSum va * devSqSum vb := by
  rw [crossSum_eq_range va vb h, devSqSum_eq_range va, devSqSum_eq_range vb, h]
  exact Finset.sum_mul_sq_le_sq_mul_sq _ _ _

theorem abs_calculate_pearson_le (va vb : List ℝ) (h : vb.length = va.length) :
    |calculate_pearson va vb| ≤ 1 := by
  unfold calculate_pearson
  by_cases h1 : va.length < 2
  · simp [h1]
  rw [if_neg h1]
  by_cases h2 : devSqSum va = 0 ∨ devSqSum vb = 0
  · simp [h2]
  rw [if_neg h2]
  push_neg at h2
  obtain ⟨hA, hB⟩ := h2
  have hA' : 0 < devSqSum va := lt_of_le_of_ne (devSqSum_nonneg va) (Ne.symm hA)
  have hB' : 0 < devSqSum vb := lt_of_le_of_ne (devSqSum_nonneg vb) (Ne.symm hB)
  have hden : 0 < Real.sqrt (devSqSum va) * Real.sqrt (devSqSum vb) :=
    mul_pos (Real.sqrt_pos.mpr hA') (Real.sqrt_pos.mpr hB')
  have hnum : |crossSum va vb| ≤ Real.sqrt (devSqSum va) * Real.sqrt (devSqSum vb) := by
    rw [← Real.sqrt_sq_eq_abs, ← Real.sqrt_mul (le_of_lt hA')]
    exact Real.sqrt_le_sqrt (crossSum_sq_le va vb h)
  rw [abs_div, abs_of_pos hden]
  exact (div_le_one hden).mpr hnum

theorem crossSum_self (v : List ℝ) : crossSum v v = devSqSum v := by
  rw [crossSum_eq_range v v rfl, devSqSum_eq_range]
  exact Finset.sum_congr rfl fun i _ => by ring

theorem calculate_pearson_self {v : List ℝ} (h2 : 2 ≤ v.length)
    (hvar : devSqSum v ≠ 0) : calculate_pearson v v = 1 := by
  unfold calculate_pearson
  rw [if_neg (by omega), if_neg (by simp [hvar]), crossSum_self,
    Real.mul_self_sqrt (devSqSum_nonneg v)]
  exact div_self hvar

theorem crossSum_comm (va vb : List ℝ) (h : vb.length = va.length) :
    crossSum va vb = crossSum vb va := by
  rw [crossSum_eq_range va vb h, crossSum_eq_range vb va h.symm, h]
  exact Finset.sum_congr rfl fun i _ => by ring

theorem calculate_pearson_comm (va vb : List ℝ) (h : va.length = vb.length) :
    calculate_pearson va vb = calculate_pearson vb va := by
  unfold calculate_pearson
  rw [h]
  by_cases h1 : vb.length < 2
  · rw [if_pos h1, if_pos h1]
  rw [if_neg h1, if_neg h1]
  by_cases h2 : devSqSum va = 0 ∨ devSqSum vb = 0
  · rw [if_pos h2, if_pos h2.symm]
  rw [if_neg h2, if_neg (fun hc => h2 hc.symm), crossSum_comm va vb h.symm, mul_comm]

theorem npStd_eq_zero_iff {v : List ℝ} (hne : v.length ≠ 0) :
    npStd v = 0 ↔ devSqSum v = 0 := by
  unfold npStd
  rw [Real.sqrt_eq_zero']
  have hn : (0 : ℝ) < v.length := by exact_mod_cast Nat.pos_of_ne_zero hne
  constructor
  · intro hle
    have hge : 0 ≤ devSqSum v / v.length := div_nonneg (devSqSum_nonneg v) (le_of_lt hn)
    have h0 : devSqSum v / (v.length : ℝ) = 0 := le_antisymm hle hge
    rcases div_eq_zero_iff.mp h0 with h | h
    · exact h
    · exact absurd h (ne_of_gt hn)
  · intro h
    rw [h]
    simp

theorem cpc_eq_cp (v1 v2 : List ℝ) (h : v1.length = v2.length) :
    calculate_pearson_correlation v1 v2 = calculate_pearson v1 v2 := by
  unfold calculate_pearson_correlation calculate_pearson pearsonrVal
  by_cases h1 : v1.length < 2
  · rw [if_pos h1, if_pos h1]
  rw [if_neg h1, if_neg h1]
  have hne1 : v1.length ≠ 0 := by omega
  have hne2 : v2.length ≠ 0 := by omega
  have e1 := npStd_eq_zero_iff hne1
  have e2 := npStd_eq_zero_iff (h ▸ hne1)
  by_cases h2 : devSqSum v1 = 0 ∨ devSqSum v2 = 0
  · rw [if_pos ((or_congr e1 e2).mpr h2), if_pos h2]
  rw [if_neg (fun hc => h2 ((or_congr e1 e2).mp hc)), if_neg h2, if_pos h]

/-- One row of the ratings table: `(user_id, business_id, rating)` as loaded
from `ratings_processed.csv`. -/
structure Rating where
  user_id : String
  business_id : String
  rating : ℝ

/-- First-occurrence deduplication: the key list of a Python dict populated by
iterating over rows in order (each key appears once, at its first
insertion). -/
def keysFirst (l : List String) : List String :=
  l.foldl (fun acc k => if k ∈ acc then acc else acc ++ [k]) []

theorem keysFirst_go_mem (l acc : List String) (k : String) :
    k ∈ l.foldl (fun a x => if x ∈ a then a else a ++ [x]) acc ↔ k ∈ acc ∨ k ∈ l := by
  induction l generalizing acc with
  | nil => simp
  | cons x t ih =>
      rw [List.foldl_cons, ih]
      by_cases hx : x ∈ acc
      · rw [if_pos hx]
        constructor
        · rintro (h | h)
          · exact Or.inl h
          · exact Or.inr (List.mem_cons_of_mem x h)
        · rintro (h | h)
          · exact Or.inl h
          · rcases List.mem_cons.mp h with rfl | h
            · exact Or.inl hx
            · exact Or.inr h
      · rw [if_neg hx]
        simp only [List.mem_append, List.mem_singleton, List.mem_cons]
        tauto

theorem mem_keysFirst (l : List String) (k : String) : k ∈ keysFirst l ↔ k ∈ l := by
  unfold keysFirst
  rw [keysFirst_go_mem]
  simp

theorem keysFirst_go_nodup (l : List String) (acc : List String) (h : acc.Nodup) :
    (l.foldl (fun a x => if x ∈ a then a else a ++ [x]) acc).Nodup := by
  induction l generalizing acc with
  | nil => simpa using h
  | cons x t ih =>
      rw [List.foldl_cons]
      by_cases hx : x ∈ acc
      · rw [if_pos hx]; exact ih acc h
      · rw [if_neg hx]
        refine ih _ ?_
        rw [List.nodup_append]
        exact ⟨h, List.nodup_singleton x, by simpa using hx⟩

theorem keysFirst_nodup (l : List String) : (keysFirst l).Nodup :=
  keysFirst_go_nodup l [] List.nodup_nil

/-- Key list of the `user_ratings` defaultdict of `analyze_cf.py` lines 32-34
(and of `qualified_users` enumeration): the distinct user ids in row order. -/
def usersList (df : List Rating) : List String :=
  keysFirst (df.map (fun r => r.user_id))

/-- Key list of the inner dict `user_ratings[u]`: the distinct items rated by
`u`, in row order. -/
def userItems (df : List Rating) (u : String) : List String :=
  keysFirst ((df.filter (fun r => r.user_id = u)).map (fun r => r.business_id))

/-- Key list of the inner dict `item_ratings[i]` of `analyze_cf.py`
lines 78-80: the distinct users who rated item `i`. -/
def itemUsers (df : List Rating) (i : String) : List String :=
  keysFirst ((df.filter (fun r => r.business_id = i)).map (fun r => r.user_id))

/-- Number of rating rows carrying `user_id = u`: the per-user count produced
by `ratings_df['user_id'].value_counts()` (`find_ideal_user.py` line 23) and
also `len(user_ratings)` on line 70 (duplicate `(user, item)` rows are rows,
hence counted). -/
def user_rating_count (df : List Rating) (u : String) : ℕ :=
  (df.filter (fun r => r.user_id = u)).length

/-- Final state of the by-user defaultdict build
`user_ratings[row.user_id][row.business_id] = row.rating` (`analyze_cf.py`
lines 32-34): the stored value at `(u, i)` is the rating of the last row for
that pair, since each dict write overwrites the previous one.  The recursion
consults the later rows first, which realizes exactly that last-wins value. -/
def user_index : List Rating → String → String → Option ℝ
  | [], _, _ => none
  | r :: rest, u, i =>
      (user_index rest u i).orElse
        (fun _ => if u = r.user_id ∧ i = r.business_id then some r.rating else none)

/-- Final state of the by-item defaultdict build
`item_ratings[row.business_id][row.user_id] = row.rating` (`analyze_cf.py`
lines 78-80), keyed item-first; last write wins as for `user_index`. -/
def item_index : List Rating → String → String → Option ℝ
  | [], _, _ => none
  | r :: rest, i, u =>
      (item_index rest i u).orElse
        (fun _ => if i = r.business_id ∧ u = r.user_id then some r.rating else none)

/-- The two read-only views the scripts build over one ratings table. -/
structure RatingDataset where
  byUser : String → String → Option ℝ
  byItem : String → String → Option ℝ

/-- Dataset construction as the scripts actually perform it: one pass filling
the two defaultdict views.  It has no failure path — on an empty row list it
simply produces empty views. -/
def build (rs : List Rating) : RatingDataset :=
  ⟨user_index rs, item_index rs⟩

/-- Kind of construction failure named by the spec. -/
inductive BuildError
  | emptyDataset

/-- Modelled from the spec: `build(ratings: sequence of Rating) ->
RatingDataset`, failing with an `EmptyDatasetError` if the input sequence is
empty (spec section 4.1).  No such failing constructor exists in the code;
this definition renders the spec's words for comparison with `build`. -/
def buildSpec (rs : List Rating) : Except BuildError RatingDataset :=
  match rs with
  | [] => Except.error BuildError.emptyDataset
  | _ => Except.ok (build rs)

theorem user_index_cons_self (r : Rating) (rest : List Rating) :
    user_index (r :: rest) r.user_id r.business_id ≠ none := by
  show (user_index rest r.user_id r.business_id).orElse _ ≠ none
  cases h : user_index rest r.user_id r.business_id with
  | some v => simp [Option.orElse, h]
  | none => simp [Option.orElse, h]

theorem user_index_eq_item_index (rs : List Rating) (u i : String) :
    user_index rs u i = item_index rs i u := by
  induction rs with
  | nil => rfl
  | cons r rest ih =>
      show (user_index rest u i).orElse _ = (item_index rest i u).orElse _
      rw [ih]
      congr 1
      funext
      rw [if_congr and_comm rfl rfl]

/-- The common-item list `target_user_items.intersection(other_user_items)` of
`analyze_cf.py` line 46 (also line 50 of `find_ideal_user.py`).  Python
iterates the set in unspecified order; here the intersection is enumerated in
the target user's key order, one fixed order used consistently for both
aligned vectors, as the scripts do. -/
def commonItems (df : List Rating) (target other : String) : List String :=
  (userItems df target).filter (fun i => i ∈ userItems df other)

/-- Aligned rating vector `[user_ratings[u][item] for item in items]`
(`analyze_cf.py` lines 50-51).  Every item passed in practice is a key of
`user_ratings[u]`, so the `getD 0` default is never the value used. -/
noncomputable def ratingsVec (df : List Rating) (u : String) (items : List String) : List ℝ :=
  items.map (fun i => (user_index df u i).getD 0)

/-- Similarity computed for one candidate user on line 54 of
`analyze_cf.py`. -/
noncomputable def userSim (df : List Rating) (target other : String) : ℝ :=
  calculate_pearson_correlation
    (ratingsVec df target (commonItems df target other))
    (ratingsVec df other (commonItems df target other))

/-- The `similarity_scores` list accumulated by the candidate loop of
`find_similar_users` (`analyze_cf.py` lines 40-57), before sorting and
truncation: one `(other_user_id, similarity, overlap)` entry per non-target
user whose common-item count reaches `min_common_ratings`. -/
noncomputable def similarity_scores (df : List Rating) (target : String)
    (minCommon : ℕ) : List (String × ℝ × ℕ) :=
  (usersList df).filterMap (fun other =>
    if other = target then none
    else if minCommon ≤ (commonItems df target other).length then
      some (other, userSim df target other, (commonItems df target other).length)
    else none)

/-- `find_similar_users` (`analyze_cf.py` lines 23-67): sort the accumulated
scores by similarity descending (line 60) and return the first `top_n`
(line 67). -/
noncomputable def find_similar_users (df : List Rating) (target : String)
    (minCommon topN : ℕ) : List (String × ℝ × ℕ) :=
  ((similarity_scores df target minCommon).mergeSort (fun a b => b.2.1 ≤ a.2.1)).take topN

/-- The common-user list `target_item_users.intersection(other_item_users)` of
`analyze_cf.py` line 94, enumerated in the target item's key order. -/
def commonUsers (df : List Rating) (ti oi : String) : List String :=
  (itemUsers df ti).filter (fun u => u ∈ itemUsers df oi)

/-- Aligned rating vector `[item_ratings[i][user] for user in users]`
(`analyze_cf.py` lines 98-99). -/
noncomputable def itemVec (df : List Rating) (i : String) (users : List String) : List ℝ :=
  users.map (fun u => (item_index df i u).getD 0)

/-- Similarity computed for one item pair on line 102 of `analyze_cf.py`. -/
noncomputable def itemSim (df : List Rating) (ti oi : String) : ℝ :=
  calculate_pearson_correlation
    (itemVec df ti (commonUsers df ti oi))
    (itemVec df oi (commonUsers df ti oi))

/-- `target_items` of `analyze_cf.py` line 73: the `business_id` column of the
target user's rows, *not* deduplicated (`.values`, not a set). -/
def targetItemsRaw (df : List Rating) (target : String) : List String :=
  (df.filter (fun r => r.user_id = target)).map (fun r => r.business_id)

/-- Key list of the outer `item_ratings` defaultdict: all distinct items. -/
def allItems (df : List Rating) : List String :=
  keysFirst (df.map (fun r => r.business_id))

/-- The `similar_items` list accumulated by `find_similar_items`
(`analyze_cf.py` lines 83-105) before sorting and truncation: for each target
item and each distinct other item, keep the pair when the common-user count
reaches `min_common_users` and the similarity is strictly positive. -/
noncomputable def similar_item_pairs (df : List Rating) (target : String)
    (minCommonUsers : ℕ) : List (String × String × ℝ × ℕ) :=
  (targetItemsRaw df target).flatMap (fun ti =>
    (allItems df).filterMap (fun oi =>
      if oi = ti then none
      else if minCommonUsers ≤ (commonUsers df ti oi).length then
        if 0 < itemSim df ti oi then
          some (ti, oi, itemSim df ti oi, (commonUsers df ti oi).length)
        else none
      else none))

/-- `find_similar_items` (`analyze_cf.py` lines 69-112): sort the retained
pairs by similarity descending (line 108) and return the first `top_n`
(line 112). -/
noncomputable def find_similar_items (df : List Rating) (target : String)
    (minCommonUsers topN : ℕ) : List (String × String × ℝ × ℕ) :=
  ((similar_item_pairs df target minCommonUsers).mergeSort
    (fun a b => b.2.2.1 ≤ a.2.2.1)).take topN

/-- The qualified-user list of `find_ideal_cf_users` (`find_ideal_user.py`
lines 23-24): users whose row count reaches `min_ratings`.  `value_counts`
enumerates them count-descending; the order is irrelevant to every property
proved here because the final output is re-sorted, so row order is used. -/
def qualified_users (df : List Rating) (minRatings : ℕ) : List String :=
  (usersList df).filter (fun u => minRatings ≤ user_rating_count df u)

/-- One output row of `find_ideal_cf_users` (`find_ideal_user.py`
lines 68-73). -/
structure RankedCandidate where
  user_id : String
  num_ratings : ℕ
  similar_users : ℕ
  potential_recommendations : ℕ

/-- Predicate: the table holds at most one row per `(user_id, business_id)`
pair.  On tables violating it the candidate ranker of `find_ideal_user.py`
can crash, because its pandas Series lookups stop being scalar (see
`calculate_pearson_pd`). -/
def NoDupPairs (df : List Rating) : Prop :=
  (df.map (fun r => (r.user_id, r.business_id))).Nodup

instance (df : List Rating) : Decidable (NoDupPairs df) :=
  inferInstanceAs (Decidable (List.Nodup _))

/-- `user_ratings[item]` where `user_ratings` is the pandas Series
`ratings_df[ratings_df.user_id == u].set_index('business_id')['rating']`
(`find_ideal_user.py` lines 35, 47, 54-55): label indexing yields the rating
of the unique matching row — or, when duplicate `(user, item)` rows exist, a
sub-Series holding all of them.  Modelled as the list of matching ratings in
row order; a singleton is pandas' scalar case. -/
def seriesGet (df : List Rating) (u i : String) : List ℝ :=
  (df.filter (fun r => r.user_id = u ∧ r.business_id = i)).map (fun r => r.rating)

/-- The uncaught exception of `find_ideal_user.py`: evaluating the truth of a
pandas Series (`if denominatorA == 0 or denominatorB == 0` with a
Series-valued denominator) raises `ValueError: the truth value of a Series is
ambiguous`, and `calculate_pearson` has no try/except around it. -/
inductive PdError where
  | ambiguousTruthValue
  deriving DecidableEq

/-- `calculate_pearson` as `find_ideal_cf_users` actually invokes it, where a
vector entry is a scalar or a sub-Series (`seriesGet`).  Mirrors the Python
evaluation order: the length guard fires first; then
`if denominatorA == 0 or denominatorB == 0` evaluates the truth of
`denominatorA == 0`, raising when `vecA` holds any sub-Series (the Series
arithmetic makes `denominatorA` itself a Series); on a scalar zero the `or`
short-circuits to the 0 result without looking at `denominatorB`; otherwise
it evaluates `denominatorB == 0`, raising when `vecB` holds any sub-Series;
in the surviving all-scalar case the function is the ordinary quotient. -/
noncomputable def calculate_pearson_pd (vecA vecB : List (List ℝ)) :
    Except PdError ℝ :=
  if vecA.length < 2 then Except.ok 0
  else if ¬ (∀ x ∈ vecA, x.length = 1) then Except.error PdError.ambiguousTruthValue
  else if devSqSum (vecA.map (fun x => x.headD 0)) = 0 then Except.ok 0
  else if ¬ (∀ x ∈ vecB, x.length = 1) then Except.error PdError.ambiguousTruthValue
  else if devSqSum (vecB.map (fun x => x.headD 0)) = 0 then Except.ok 0
  else Except.ok
    (crossSum (vecA.map (fun x => x.headD 0)) (vecB.map (fun x => x.headD 0)) /
      (Real.sqrt (devSqSum (vecA.map (fun x => x.headD 0))) *
        Real.sqrt (devSqSum (vecB.map (fun x => x.headD 0)))))

/-- The `calculate_pearson` call of `find_ideal_user.py` lines 54-58 for one
candidate pair, on the aligned, possibly-Series-valued vectors. -/
noncomputable def pdPearsonFor (df : List Rating) (u o : String) : Except PdError ℝ :=
  calculate_pearson_pd
    ((commonItems df u o).map (fun i => seriesGet df u i))
    ((commonItems df u o).map (fun i => seriesGet df o i))

/-- Inner candidate loop of `find_ideal_cf_users` (`find_ideal_user.py`
lines 42-65) over the remaining qualified users: skip `u` itself and pairs
with too few common items; otherwise the `calculate_pearson` call either
raises (aborting the whole run) or yields a similarity, and the candidate is
kept when it strictly exceeds `min_similarity`. -/
noncomputable def similarQualifiedE (df : List Rating) (minCommon : ℕ) (minSim : ℝ)
    (u : String) : List String → Except PdError (List String)
  | [] => Except.ok []
  | o :: rest =>
      if o = u then similarQualifiedE df minCommon minSim u rest
      else if minCommon ≤ (commonItems df u o).length then
        match pdPearsonFor df u o with
        | Except.error e => Except.error e
        | Except.ok sim =>
            match similarQualifiedE df minCommon minSim u rest with
            | Except.error e => Except.error e
            | Except.ok l => Except.ok (if minSim < sim then o :: l else l)
      else similarQualifiedE df minCommon minSim u rest

/-- One result row (`find_ideal_user.py` lines 68-73) assembled from a
computed similar-user list: the user's rating-row count, the number of
similar users, and the size of the union of the items those similar users
rated that `u` did not (`potential_recommendations`, lines 63-65). -/
noncomputable def rowOf (df : List Rating) (u : String) (sims : List String) :
    RankedCandidate :=
  ⟨u, user_rating_count df u, sims.length,
    ((sims.map
        (fun o => (userItems df o).filter (fun i => ¬ i ∈ userItems df u))).flatten.dedup).length⟩

/-- Value of the inner loop `similarQualifiedE` on a duplicate-free table,
where every Series lookup is the scalar `user_index` value
(`similarQualifiedE_eq` proves the correspondence). -/
noncomputable def similarQualified (df : List Rating) (qualified : List String)
    (minCommon : ℕ) (minSim : ℝ) (u : String) : List String :=
  qualified.filter (fun o =>
    o ≠ u ∧ minCommon ≤ (commonItems df u o).length ∧
      minSim < calculate_pearson
        (ratingsVec df u (commonItems df u o))
        (ratingsVec df o (commonItems df u o)))

/-- The result row for one qualified user on a duplicate-free table. -/
noncomputable def candidate_row (df : List Rating) (qualified : List String)
    (minCommon : ℕ) (minSim : ℝ) (u : String) : RankedCandidate :=
  rowOf df u (similarQualified df qualified minCommon minSim u)

/-- Per-user loop of `find_ideal_cf_users` (`find_ideal_user.py`
lines 30-73): one row per qualified user; the first raise aborts the run, so
no row list is produced at all. -/
noncomputable def rowsE (df : List Rating) (qualified : List String) (minCommon : ℕ)
    (minSim : ℝ) : List String → Except PdError (List RankedCandidate)
  | [] => Except.ok []
  | u :: rest =>
      match (similarQualifiedE df minCommon minSim u qualified).map (rowOf df u) with
      | Except.error e => Except.error e
      | Except.ok row =>
          match rowsE df qualified minCommon minSim rest with
          | Except.error e => Except.error e
          | Except.ok rows => Except.ok (row :: rows)

/-- `find_ideal_cf_users` as run (`find_ideal_user.py` lines 5-87): either
the rows for all qualified users sorted by `similar_users` then
`potential_recommendations`, both descending (line 77), or the uncaught
`ValueError` when some Series truth test was ambiguous. -/
noncomputable def find_ideal_resultsE (df : List Rating) (minRatings minCommon : ℕ)
    (minSim : ℝ) : Except PdError (List RankedCandidate) :=
  (rowsE df (qualified_users df minRatings) minCommon minSim
      (qualified_users df minRatings)).map
    (fun rows => rows.mergeSort (fun a b => b.similar_users < a.similar_users ∨
      (a.similar_users = b.similar_users ∧
        b.potential_recommendations ≤ a.potential_recommendations)))

/-- The row list the run produces on a duplicate-free table
(`find_ideal_resultsE_eq` shows `find_ideal_resultsE` returns exactly this
value there). -/
noncomputable def find_ideal_results (df : List Rating) (minRatings minCommon : ℕ)
    (minSim : ℝ) : List RankedCandidate :=
  ((qualified_users df minRatings).map
      (candidate_row df (qualified_users df minRatings) minCommon minSim)).mergeSort
    (fun a b => b.similar_users < a.similar_users ∨
      (a.similar_users = b.similar_users ∧
        b.potential_recommendations ≤ a.potential_recommendations))

theorem mem_similarity_scores {df : List Rating} {t : String} {m : ℕ}
    {r : String × ℝ × ℕ} :
    r ∈ similarity_scores df t m ↔
      ∃ other, other ∈ usersList df ∧ other ≠ t ∧
        m ≤ (commonItems df t other).length ∧
        r = (other, userSim df t other, (commonItems df t other).length) := by
  unfold similarity_scores
  rw [List.mem_filterMap]
  constructor
  · rintro ⟨other, ho, heq⟩
    by_cases h1 : other = t
    · rw [if_pos h1] at heq
      exact absurd heq (by simp)
    rw [if_neg h1] at heq
    by_cases h2 : m ≤ (commonItems df t other).length
    · rw [if_pos h2] at heq
      exact ⟨other, ho, h1, h2, (Option.some_injective _ heq).symm⟩
    · rw [if_neg h2] at heq
      exact absurd heq (by simp)
  · rintro ⟨other, ho, h1, h2, rfl⟩
    exact ⟨other, ho, by rw [if_neg h1, if_pos h2]⟩

theorem mem_of_mem_find_similar_users {df : List Rating} {t : String} {m n : ℕ}
    {r : String × ℝ × ℕ} (hr : r ∈ find_similar_users df t m n) :
    r ∈ similarity_scores df t m := by
  unfold find_similar_users at hr
  exact (List.mergeSort_perm _ _).mem_iff.mp (List.take_subset _ _ hr)

theorem mem_similar_item_pairs {df : List Rating} {t : String} {m : ℕ}
    {r : String × String × ℝ × ℕ} (hr : r ∈ similar_item_pairs df t m) :
    m ≤ r.2.2.2 ∧ 0 < r.2.2.1 := by
  unfold similar_item_pairs at hr
  rw [List.mem_flatMap] at hr
  obtain ⟨ti, _, hfm⟩ := hr
  rw [List.mem_filterMap] at hfm
  obtain ⟨oi, _, heq⟩ := hfm
  by_cases h1 : oi = ti
  · rw [if_pos h1] at heq
    exact absurd heq (by simp)
  rw [if_neg h1] at heq
  by_cases h2 : m ≤ (commonUsers df ti oi).length
  · rw [if_pos h2] at heq
    by_cases h3 : 0 < itemSim df ti oi
    · rw [if_pos h3] at heq
      have := (Option.some_injective _ heq).symm
      rw [this]
      exact ⟨h2, h3⟩
    · rw [if_neg h3] at heq
      exact absurd heq (by simp)
  · rw [if_neg h2] at heq
    exact absurd heq (by simp)

theorem mem_of_mem_find_similar_items {df : List Rating} {t : String} {m n : ℕ}
    {r : String × String × ℝ × ℕ} (hr : r ∈ find_similar_items df t m n) :
    r ∈ similar_item_pairs df t m := by
  unfold find_similar_items at hr
  exact (List.mergeSort_perm _ _).mem_iff.mp (List.take_subset _ _ hr)

theorem mem_usersList_of_count_pos {df : List Rating} {u : String}
    (h : 1 ≤ user_rating_count df u) : u ∈ usersList df := by
  unfold user_rating_count at h
  have hne : df.filter (fun r => r.user_id = u) ≠ [] := by
    intro h0
    rw [h0] at h
    simp at h
  rcases List.exists_mem_of_ne_nil _ hne with ⟨r, hr⟩
  have hm := List.mem_filter.mp hr
  unfold usersList
  rw [mem_keysFirst, List.mem_map]
  exact ⟨r, hm.1, by simpa using hm.2⟩

theorem mem_qualified_users {df : List Rating} {minR : ℕ} {u : String} :
    u ∈ qualified_users df minR ↔ u ∈ usersList df ∧ minR ≤ user_rating_count df u := by
  unfold qualified_users
  rw [List.mem_filter]
  simp

theorem qualified_users_nodup (df : List Rating) (minR : ℕ) :
    (qualified_users df minR).Nodup :=
  (keysFirst_nodup _).filter _

theorem candidate_row_user_id (df : List Rating) (q : List String) (mc : ℕ)
    (ms : ℝ) (u : String) : (candidate_row df q mc ms u).user_id = u := rfl

theorem candidate_row_num_ratings (df : List Rating) (q : List String) (mc : ℕ)
    (ms : ℝ) (u : String) :
    (candidate_row df q mc ms u).num_ratings = user_rating_count df u := rfl

theorem find_ideal_results_countP (df : List Rating) (minR minC : ℕ) (minS : ℝ)
    (u : String) :
    (find_ideal_results df minR minC minS).countP (fun row => row.user_id == u) =
      (qualified_users df minR).count u := by
  unfold find_ideal_results
  rw [(List.mergeSort_perm _ _).countP_eq, List.countP_map]
  have hc : ∀ q : String,
      ((fun row : RankedCandidate => row.user_id == u) ∘
        candidate_row df (qualified_users df minR) minC minS) q = (q == u) := fun q => rfl
  rw [List.countP_congr (fun a _ => by rw [hc a]), List.count]

theorem noDupPairs_cons {r : Rating} {rest : List Rating} (h : NoDupPairs (r :: rest)) :
    (r.user_id, r.business_id) ∉ rest.map (fun x => (x.user_id, x.business_id)) ∧
      NoDupPairs rest := by
  unfold NoDupPairs at h ⊢
  rw [List.map_cons, List.nodup_cons] at h
  exact h

theorem no_match_of_noDupPairs {r : Rating} {rest : List Rating} {u i : String}
    (h : NoDupPairs (r :: rest)) (hm : r.user_id = u ∧ r.business_id = i) :
    ∀ x ∈ rest, ¬ (x.user_id = u ∧ x.business_id = i) := by
  intro x hx hc
  apply (noDupPairs_cons h).1
  rw [List.mem_map]
  refine ⟨x, hx, ?_⟩
  rw [hc.1, hc.2, hm.1, hm.2]

theorem user_index_eq_none (rest : List Rating) (u i : String)
    (h : ∀ r ∈ rest, ¬ (r.user_id = u ∧ r.business_id = i)) :
    user_index rest u i = none := by
  induction rest with
  | nil => rfl
  | cons r t ih =>
      show (user_index t u i).orElse _ = none
      rw [ih (fun x hx => h x (List.mem_cons_of_mem r hx))]
      show (if u = r.user_id ∧ i = r.business_id then some r.rating else none) = none
      exact if_neg (fun hc => h r (List.mem_cons_self r t) ⟨hc.1.symm, hc.2.symm⟩)

theorem seriesGet_eq_nil (rest : List Rating) (u i : String)
    (h : ∀ r ∈ rest, ¬ (r.user_id = u ∧ r.business_id = i)) :
    seriesGet rest u i = [] := by
  unfold seriesGet
  rw [List.map_eq_nil_iff, List.filter_eq_nil_iff]
  intro r hr
  simpa using h r hr

theorem seriesGet_length_le_one :
    ∀ (df : List Rating), NoDupPairs df → ∀ u i, (seriesGet df u i).length ≤ 1 := by
  intro df
  induction df with
  | nil =>
      intro _ u i
      simp [seriesGet]
  | cons r rest ih =>
      intro hnd u i
      by_cases hm : r.user_id = u ∧ r.business_id = i
      · have hnil := seriesGet_eq_nil rest u i (no_match_of_noDupPairs hnd hm)
        unfold seriesGet at hnil ⊢
        rw [List.filter_cons, if_pos (by simpa using hm), List.map_cons, hnil]
        simp
      · unfold seriesGet at ih ⊢
        rw [List.filter_cons, if_neg (by simpa using hm)]
        exact ih (noDupPairs_cons hnd).2 u i

theorem seriesGet_headD_eq :
    ∀ (df : List Rating), NoDupPairs df → ∀ u i,
      (seriesGet df u i).headD 0 = (user_index df u i).getD 0 := by
  intro df
  induction df with
  | nil =>
      intro _ u i
      rfl
  | cons r rest ih =>
      intro hnd u i
      by_cases hm : r.user_id = u ∧ r.business_id = i
      · have hrest := no_match_of_noDupPairs hnd hm
        have h1 : seriesGet (r :: rest) u i = [r.rating] := by
          have hnil := seriesGet_eq_nil rest u i hrest
          unfold seriesGet at hnil ⊢
          rw [List.filter_cons, if_pos (by simpa using hm), List.map_cons, hnil]
        have h2 : user_index (r :: rest) u i = some r.rating := by
          show (user_index rest u i).orElse _ = _
          rw [user_index_eq_none rest u i hrest]
          show (if u = r.user_id ∧ i = r.business_id then some r.rating else none) =
            some r.rating
          exact if_pos ⟨hm.1.symm, hm.2.symm⟩
        rw [h1, h2]
        rfl
      · have h1 : seriesGet (r :: rest) u i = seriesGet rest u i := by
          unfold seriesGet
          rw [List.filter_cons, if_neg (by simpa using hm)]
        have h2 : user_index (r :: rest) u i = user_index rest u i := by
          cases hui : user_index rest u i with
          | some v =>
              show (user_index rest u i).orElse _ = _
              rw [hui]
              rfl
          | none =>
              show (user_index rest u i).orElse _ = _
              rw [hui]
              show (if u = r.user_id ∧ i = r.business_id then some r.rating else none) = none
              exact if_neg (fun hc => hm ⟨hc.1.symm, hc.2.symm⟩)
        rw [h1, h2]
        exact ih (noDupPairs_cons hnd).2 u i

theorem seriesGet_ne_nil_of_mem_userItems {df : List Rating} {u i : String}
    (hi : i ∈ userItems df u) : seriesGet df u i ≠ [] := by
  unfold userItems at hi
  rw [mem_keysFirst, List.mem_map] at hi
  obtain ⟨r, hr, rfl⟩ := hi
  have hrf := List.mem_filter.mp hr
  have hu : r.user_id = u := by simpa using hrf.2
  intro hnil
  unfold seriesGet at hnil
  rw [List.map_eq_nil_iff, List.filter_eq_nil_iff] at hnil
  exact hnil r hrf.1 (by simp [hu])

theorem seriesGet_length_eq_one {df : List Rating} (hnd : NoDupPairs df)
    {u i : String} (hi : i ∈ userItems df u) : (seriesGet df u i).length = 1 :=
  le_antisymm (seriesGet_length_le_one df hnd u i)
    (List.length_pos.mpr (seriesGet_ne_nil_of_mem_userItems hi))

theorem calculate_pearson_pd_scalar (vecA vecB : List (List ℝ))
    (hA : ∀ x ∈ vecA, x.length = 1) (hB : ∀ x ∈ vecB, x.length = 1) :
    calculate_pearson_pd vecA vecB =
      Except.ok (calculate_pearson (vecA.map (fun x => x.headD 0))
        (vecB.map (fun x => x.headD 0))) := by
  unfold calculate_pearson_pd calculate_pearson
  rw [List.length_map]
  by_cases h1 : vecA.length < 2
  · rw [if_pos h1, if_pos h1]
  rw [if_neg h1, if_neg h1, if_neg (not_not_intro hA)]
  by_cases h2 : devSqSum (vecA.map (fun x => x.headD 0)) = 0
  · rw [if_pos h2, if_pos (Or.inl h2)]
  rw [if_neg h2, if_neg (not_not_intro hB)]
  by_cases h3 : devSqSum (vecB.map (fun x => x.headD 0)) = 0
  · rw [if_pos h3, if_pos (Or.inr h3)]
  rw [if_neg h3, if_neg (fun hc => hc.elim h2 h3)]

theorem pdPearsonFor_eq {df : List Rating} (hnd : NoDupPairs df) (u o : String) :
    pdPearsonFor df u o = Except.ok
      (calculate_pearson (ratingsVec df u (commonItems df u o))
        (ratingsVec df o (commonItems df u o))) := by
  have hA : ∀ x ∈ (commonItems df u o).map (fun i => seriesGet df u i), x.length = 1 := by
    intro x hx
    rw [List.mem_map] at hx
    obtain ⟨i, hi, rfl⟩ := hx
    unfold commonItems at hi
    exact seriesGet_length_eq_one hnd (List.mem_filter.mp hi).1
  have hB : ∀ x ∈ (commonItems df u o).map (fun i => seriesGet df o i), x.length = 1 := by
    intro x hx
    rw [List.mem_map] at hx
    obtain ⟨i, hi, rfl⟩ := hx
    unfold commonItems at hi
    have hio : i ∈ userItems df o := by simpa using (List.mem_filter.mp hi).2
    exact seriesGet_length_eq_one hnd hio
  have eA : ((commonItems df u o).map (fun i => seriesGet df u i)).map
      (fun x => x.headD 0) = ratingsVec df u (commonItems df u o) := by
    rw [List.map_map]
    unfold ratingsVec
    apply List.map_congr_left
    intro i _
    exact seriesGet_headD_eq df hnd u i
  have eB : ((commonItems df u o).map (fun i => seriesGet df o i)).map
      (fun x => x.headD 0) = ratingsVec df o (commonItems df u o) := by
    rw [List.map_map]
    unfold ratingsVec
    apply List.map_congr_left
    intro i _
    exact seriesGet_headD_eq df hnd o i
  unfold pdPearsonFor
  rw [calculate_pearson_pd_scalar _ _ hA hB, eA, eB]

theorem similarQualifiedE_eq {df : List Rating} (hnd : NoDupPairs df)
    (minC : ℕ) (minSim : ℝ) (u : String) :
    ∀ l : List String, similarQualifiedE df minC minSim u l =
      Except.ok (similarQualified df l minC minSim u) := by
  intro l
  induction l with
  | nil => rfl
  | cons o rest ih =>
      unfold similarQualified at ih ⊢
      simp only [similarQualifiedE]
      rw [List.filter_cons]
      by_cases h1 : o = u
      · have hc : ¬ (o ≠ u ∧ minC ≤ (commonItems df u o).length ∧
            minSim < calculate_pearson (ratingsVec df u (commonItems df u o))
              (ratingsVec df o (commonItems df u o))) := fun hc => hc.1 h1
        rw [if_pos h1, ih, if_neg (by simpa using hc)]
      · by_cases h2 : minC ≤ (commonItems df u o).length
        · rw [if_neg h1, if_pos h2]
          simp only [pdPearsonFor_eq hnd u o, ih]
          by_cases h3 : minSim < calculate_pearson
              (ratingsVec df u (commonItems df u o))
              (ratingsVec df o (commonItems df u o))
          · rw [if_pos h3, if_pos (by simp [h1, h2, h3])]
          · rw [if_neg h3, if_neg (by simp [h1, h2, h3])]
        · rw [if_neg h1, if_neg h2, ih, if_neg (by simp [h1, h2])]

theorem rowsE_eq {df : List Rating} (hnd : NoDupPairs df) (q : List String)
    (minC : ℕ) (minSim : ℝ) :
    ∀ l : List String, rowsE df q minC minSim l =
      Except.ok (l.map (candidate_row df q minC minSim)) := by
  intro l
  induction l with
  | nil => rfl
  | cons v rest ih =>
      rw [List.map_cons]
      simp only [rowsE, similarQualifiedE_eq hnd minC minSim v q, Except.map, ih]
      rfl

theorem find_ideal_resultsE_eq {df : List Rating} (hnd : NoDupPairs df)
    (minR minC : ℕ) (minS : ℝ) :
    find_ideal_resultsE df minR minC minS =
      Except.ok (find_ideal_results df minR minC minS) := by
  unfold find_ideal_resultsE find_ideal_results
  rw [rowsE_eq hnd (qualified_users df minR) minC minS (qualified_users df minR)]
  rfl

/-- A small concrete ratings table used to instantiate the universally
quantified theorems: users A and B share items x and y, user C is isolated. -/
def sampleDf : List Rating :=
  [⟨"A", "x", 1⟩, ⟨"A", "y", 2⟩, ⟨"B", "x", 1⟩, ⟨"B", "y", 2⟩, ⟨"C", "z", 3⟩]

/-- Claim C1: for every pair of equal-length real vectors, the Pearson
similarity function returns exactly 0 whenever the vectors have length < 2 or
whenever either vector has zero variance (all its values identical); the
embedding is a total function, so it never raises in these cases. -/
theorem claim_C1 (va vb : List ℝ) (hlen : va.length = vb.length)
    (hdeg : va.length < 2 ∨ (∃ c, ∀ x ∈ va, x = c) ∨ (∃ c, ∀ x ∈ vb, x = c)) :
    calculate_pearson va vb = 0 ∧ calculate_pearson_correlation va vb = 0 := by
  have hcp : calculate_pearson va vb = 0 := by
    unfold calculate_pearson
    by_cases h1 : va.length < 2
    · rw [if_pos h1]
    · rw [if_neg h1]
      have hna : va ≠ [] := by
        intro h0
        rw [h0] at h1
        simp at h1
      have hnb : vb ≠ [] := by
        intro h0
        rw [h0] at hlen
        simp at hlen
        exact hna hlen
      have h2 : devSqSum va = 0 ∨ devSqSum vb = 0 := by
        rcases hdeg with h | ⟨c, hc⟩ | ⟨c, hc⟩
        · exact absurd h h1
        · exact Or.inl (devSqSum_of_all_eq hna hc)
        · exact Or.inr (devSqSum_of_all_eq hnb hc)
      rw [if_pos h2]
  exact ⟨hcp, by rw [cpc_eq_cp va vb hlen]; exact hcp⟩

/-- Witness for C1 at the spec's own example `pearson([5,5,5], [1,2,3])`. -/
theorem claim_C1_witness :
    calculate_pearson [5, 5, 5] [1, 2, 3] = 0 ∧
      calculate_pearson_correlation [5, 5, 5] [1, 2, 3] = 0 :=
  claim_C1 [5, 5, 5] [1, 2, 3] rfl
    (Or.inr (Or.inl ⟨5, by
      intro x hx
      simp only [List.mem_cons, List.not_mem_nil, or_false] at hx
      rcases hx with rfl | rfl | rfl <;> rfl⟩))

/-- Claim C2: for every pair of real vectors with equal length at least 2,
the Pearson similarity lies in the closed interval from -1 to 1. -/
theorem claim_C2 (v1 v2 : List ℝ) (hlen : v1.length = v2.length)
    (_h2 : 2 ≤ v1.length) :
    (-1 ≤ calculate_pearson v1 v2 ∧ calculate_pearson v1 v2 ≤ 1) ∧
      (-1 ≤ calculate_pearson_correlation v1 v2 ∧
        calculate_pearson_correlation v1 v2 ≤ 1) := by
  have h := abs_le.mp (abs_calculate_pearson_le v1 v2 hlen.symm)
  refine ⟨h, ?_⟩
  rw [cpc_eq_cp v1 v2 hlen]
  exact h

/-- Witness for C2 on a concrete anticorrelated pair. -/
theorem claim_C2_witness :
    (-1 ≤ calculate_pearson [1, 2] [2, 1] ∧ calculate_pearson [1, 2] [2, 1] ≤ 1) ∧
      (-1 ≤ calculate_pearson_correlation [1, 2] [2, 1] ∧
        calculate_pearson_correlation [1, 2] [2, 1] ≤ 1) :=
  claim_C2 [1, 2] [2, 1] rfl (by simp)

/-- Claim C3: for every real vector of length at least 2 whose values are not
all identical (nonzero variance), the self-similarity is exactly 1. -/
theorem claim_C3 (v : List ℝ) (h2 : 2 ≤ v.length)
    (hvar : ∃ a ∈ v, ∃ b ∈ v, a ≠ b) : calculate_pearson v v = 1 := by
  obtain ⟨a, ha, b, hb, hab⟩ := hvar
  exact calculate_pearson_self h2 (devSqSum_ne_zero_of_two_ne ha hb hab)

/-- Witness for C3 on the vector `[1, 2]`. -/
theorem claim_C3_witness : calculate_pearson [1, 2] [1, 2] = 1 :=
  claim_C3 [1, 2] (by simp) ⟨1, by simp, 2, by simp, by norm_num⟩

/-- Claim C4 (counterexample): the spec-modelled constructor fails with
`EmptyDatasetError` on the empty rating sequence, but the construction the
scripts actually perform succeeds there, returning the dataset whose two
views are empty (probed at a concrete key pair). -/
theorem claim_C4_counterexample :
    buildSpec ([] : List Rating) = Except.error BuildError.emptyDataset ∧
      (build ([] : List Rating)).byUser "u0" "i0" = none ∧
      (build ([] : List Rating)).byItem "i0" "u0" = none :=
  ⟨rfl, rfl, rfl⟩

/-- Claim C4 (amended): dataset construction never fails; it succeeds on
every input sequence, and the by-user view it builds is empty exactly when
the input sequence is empty. -/
theorem claim_C4_amended (rs : List Rating) :
    (∀ u i, (build rs).byUser u i = none) ↔ rs = [] := by
  constructor
  · intro h
    cases rs with
    | nil => rfl
    | cons r rest =>
        exact absurd (h r.user_id r.business_id) (user_index_cons_self r rest)
  · rintro rfl u i
    rfl

/-- Claim C5: for every input rating sequence (duplicates included), the
by-user and by-item indices agree: the rating stored under `u` then `i` in
the by-user view equals the rating stored under `i` then `u` in the by-item
view, and a pair is present in one view exactly when it is present in the
other. -/
theorem claim_C5 (rs : List Rating) (u i : String) :
    (build rs).byUser u i = (build rs).byItem i u ∧
      ((build rs).byUser u i).isSome = ((build rs).byItem i u).isSome :=
  ⟨user_index_eq_item_index rs u i,
    congrArg Option.isSome (user_index_eq_item_index rs u i)⟩

/-- Claim C6: every result of `find_similar_users` with threshold `m` has
overlap count at least `m` (candidates with fewer common items are skipped
entirely), and for thresholds `m1 ≤ m2` the users emitted by the candidate
loop at `m2` form a subset of those emitted at `m1`. -/
theorem claim_C6 (df : List Rating) (t : String) (m m1 m2 n : ℕ)
    (h12 : m1 ≤ m2) :
    List.Forall (fun r => m ≤ r.2.2) (find_similar_users df t m n) ∧
      ((similarity_scores df t m2).map (fun r => r.1)) ⊆
        ((similarity_scores df t m1).map (fun r => r.1)) := by
  constructor
  · rw [List.forall_iff_forall_mem]
    intro r hr
    obtain ⟨o, _, _, hlen, rfl⟩ :=
      mem_similarity_scores.mp (mem_of_mem_find_similar_users hr)
    exact hlen
  · intro u hu
    rw [List.mem_map] at hu ⊢
    obtain ⟨r, hr, rfl⟩ := hu
    obtain ⟨o, ho, hot, hlen, rfl⟩ := mem_similarity_scores.mp hr
    exact ⟨(o, userSim df t o, (commonItems df t o).length),
      mem_similarity_scores.mpr ⟨o, ho, hot, le_trans h12 hlen, rfl⟩, rfl⟩

/-- Witness for C6 on the sample table with thresholds 1 and 2. -/
theorem claim_C6_witness :
    List.Forall (fun r => 1 ≤ r.2.2) (find_similar_users sampleDf "A" 1 10) ∧
      ((similarity_scores sampleDf "A" 2).map (fun r => r.1)) ⊆
        ((similarity_scores sampleDf "A" 1).map (fun r => r.1)) :=
  claim_C6 sampleDf "A" 1 1 2 10 (by decide)

/-- Claim C7: every result of `find_similar_items` has strictly positive
similarity; zero- or negative-correlation pairs are never returned. -/
theorem claim_C7 (df : List Rating) (t : String) (m n : ℕ) :
    List.Forall (fun r => 0 < r.2.2.1) (find_similar_items df t m n) := by
  rw [List.forall_iff_forall_mem]
  intro r hr
  exact (mem_similar_item_pairs (mem_of_mem_find_similar_items hr)).2

/-- Claim C8: `find_similar_users` never returns a result carrying the target
user's id. -/
theorem claim_C8 (df : List Rating) (t : String) (m n : ℕ) :
    List.Forall (fun r => r.1 ≠ t) (find_similar_users df t m n) := by
  rw [List.forall_iff_forall_mem]
  intro r hr
  obtain ⟨o, _, hot, _, rfl⟩ :=
    mem_similarity_scores.mp (mem_of_mem_find_similar_users hr)
  exact hot

/-- Rows exercising the duplicate-pair crash of `find_ideal_cf_users`: user
u1 rated item x twice, so `user_ratings['x']` is a two-element sub-Series. -/
def dupDf : List Rating :=
  [⟨"u1", "x", 3⟩, ⟨"u1", "x", 4⟩, ⟨"u1", "y", 5⟩, ⟨"u2", "x", 2⟩, ⟨"u2", "y", 1⟩]

/-- Claim C9 (counterexample): with `minRatings = 1` user u1 qualifies (three
rating rows), yet on this table the ranking run aborts with the uncaught
ambiguous-Series-truth error and produces no row list at all — in particular
not one row per qualified user. -/
theorem claim_C9_counterexample :
    1 ≤ user_rating_count dupDf "u1" ∧
      find_ideal_resultsE dupDf 1 2 (1 / 10) =
        Except.error PdError.ambiguousTruthValue := by
  exact ⟨by decide, rfl⟩

/-- Claim C9 (amended): on a dataset free of duplicate (user, item) rows the
ranking run succeeds — the fallible run returns exactly the pure row list —
and that list holds exactly one row per user whose rating count reaches
`minRatings`, no row at all for a user below the threshold (excluded, not
scored as zero), and `num_ratings ≥ minRatings` on every row. -/
theorem claim_C9 (df : List Rating) (minR minC : ℕ) (minS : ℝ) (u : String)
    (hnd : NoDupPairs df) (hminR : 1 ≤ minR) :
    find_ideal_resultsE df minR minC minS =
        Except.ok (find_ideal_results df minR minC minS) ∧
    (minR ≤ user_rating_count df u →
      (find_ideal_results df minR minC minS).countP
        (fun row => row.user_id == u) = 1) ∧
    (user_rating_count df u < minR →
      (find_ideal_results df minR minC minS).countP
        (fun row => row.user_id == u) = 0) ∧
    List.Forall (fun row => minR ≤ row.num_ratings)
      (find_ideal_results df minR minC minS) := by
  refine ⟨find_ideal_resultsE_eq hnd minR minC minS, ?_, ?_, ?_⟩
  · intro hcount
    rw [find_ideal_results_countP]
    exact List.count_eq_one_of_mem (qualified_users_nodup df minR)
      (mem_qualified_users.mpr
        ⟨mem_usersList_of_count_pos (le_trans hminR hcount), hcount⟩)
  · intro hcount
    rw [find_ideal_results_countP]
    exact List.count_eq_zero.mpr
      (fun hq => absurd (mem_qualified_users.mp hq).2 (by omega))
  · rw [List.forall_iff_forall_mem]
    intro row hrow
    unfold find_ideal_results at hrow
    have hm := (List.mergeSort_perm _ _).mem_iff.mp hrow
    rw [List.mem_map] at hm
    obtain ⟨q, hq, rfl⟩ := hm
    rw [candidate_row_num_ratings]
    exact (mem_qualified_users.mp hq).2

/-- Witness for C9: the sample table is duplicate-free, user A has at least
one rating, the run succeeds, and A receives exactly one ranked row. -/
theorem claim_C9_witness :
    NoDupPairs sampleDf ∧ 1 ≤ user_rating_count sampleDf "A" ∧
      find_ideal_resultsE sampleDf 1 1 0 =
        Except.ok (find_ideal_results sampleDf 1 1 0) ∧
      (find_ideal_results sampleDf 1 1 0).countP
        (fun row => row.user_id == "A") = 1 := by
  refine ⟨by decide, by decide, ?_, ?_⟩
  · exact (claim_C9 sampleDf 1 1 0 "A" (by decide) (by decide)).1
  · exact ((claim_C9 sampleDf 1 1 0 "A" (by decide) (by decide)).2).1 (by decide)

/-- Claim C10: the Pearson similarity function is symmetric on equal-length
vectors, both in the pure implementation and in the scipy-backed one. -/
theorem claim_C10 (a b : List ℝ) (hlen : a.length = b.length) :
    calculate_pearson a b = calculate_pearson b a ∧
      calculate_pearson_correlation a b = calculate_pearson_correlation b a := by
  refine ⟨calculate_pearson_comm a b hlen, ?_⟩
  rw [cpc_eq_cp a b hlen, cpc_eq_cp b a hlen.symm]
  exact calculate_pearson_comm a b hlen

/-- Witness for C10 on a concrete pair. -/
theorem claim_C10_witness :
    calculate_pearson [1, 2] [3, 5] = calculate_pearson [3, 5] [1, 2] ∧
      calculate_pearson_correlation [1, 2] [3, 5] =
        calculate_pearson_correlation [3, 5] [1, 2] :=
  claim_C10 [1, 2] [3, 5] rfl

end YelpCF
